import Mathlib

/-!
# agent-team-release: the Go checker and the `check` command

A shallow embedding of `pkg/checks/golang.go` (`GoChecker`) and of
`cmd/atrelease/check.go` (`runCheck`).

Text (Go `string` / `[]byte`) is a Lean `String`, read as its sequence of
code points.  An `error` is `Option String`: `none` is `nil`, `some msg` an
error value.  Go `int` is `Int`.

External programs are an environment `Env` of oracles.  Every oracle sees the
trace of all earlier calls, so a tool may answer differently each time it is
asked; the sub-checks thread that trace through and extend it by what they
call.
-/

set_option autoImplicit false
set_option maxRecDepth 8192

namespace Checks

/-! ## Data model -/

/-- Modelled from the spec: the type `Result` (its declaration is outside the
files at hand).  Fields as the spec's data model and the struct literals of
`golang.go` and `checks_test.go` name them; a field left out of a literal has
Go's zero value. -/
structure Result where
  Name : String := ""
  Passed : Bool := false
  Output : String := ""
  Error : Option String := none
  Skipped : Bool := false
  Reason : String := ""
deriving DecidableEq, Repr

/-- Modelled from the spec: the type `Options` (its declaration is outside the
files at hand).  Fields as the spec's data model, `runCheck` and
`TestDefaultOptions` name them; a field left out of a literal has Go's zero
value. -/
structure Options where
  Test : Bool := false
  Lint : Bool := false
  Format : Bool := false
  Coverage : Bool := false
  GoExcludeCoverage : String := ""
  Verbose : Bool := false
deriving DecidableEq, Repr

/-- Modelled from the spec: `DefaultOptions()`, the defaults that
`TestDefaultOptions` asserts (`Verbose` is not asserted there and is taken as
Go's zero value). -/
def DefaultOptions : Options :=
  { Test := true, Lint := true, Format := true, Coverage := false, GoExcludeCoverage := "cmd" }

/-! ## Library functions used by the checker -/

/-- Go `unicode.IsSpace`: the Latin-1 spaces `\t \n \v \f \r`, space, U+0085,
U+00A0, and the code points of category Z / property Pattern_White_Space. -/
def isSpace (c : Char) : Bool :=
  let n := c.toNat
  (9 ≤ n && n ≤ 13) || n == 32 || n == 0x85 || n == 0xA0 || n == 0x1680 ||
  (0x2000 ≤ n && n ≤ 0x200A) || n == 0x2028 || n == 0x2029 || n == 0x202F ||
  n == 0x205F || n == 0x3000

/-- The Unicode code points with the property White_Space: the white space
that trimming removes. -/
def whiteSpace : List Nat :=
  [0x09, 0x0A, 0x0B, 0x0C, 0x0D, 0x20, 0x85, 0xA0, 0x1680, 0x2000, 0x2001, 0x2002, 0x2003,
   0x2004, 0x2005, 0x2006, 0x2007, 0x2008, 0x2009, 0x200A, 0x2028, 0x2029, 0x202F, 0x205F,
   0x3000]

/-- Go `strings.TrimSpace`: the text without its leading and trailing white space. -/
def TrimSpace (s : String) : String :=
  ⟨(s.data.dropWhile isSpace).rdropWhile isSpace⟩

/-- The class `\s` of Go regular expressions (RE2): `[\t\n\f\r ]`. -/
def reSpace (c : Char) : Bool :=
  c == '\t' || c == '\n' || c == Char.ofNat 12 || c == '\r' || c == ' '

/-- The double quote character. -/
def dquote : Char := Char.ofNat 34

/-- The literal part `"Path":` of the pattern. -/
def localReplacePattern.literal : List Char := "\"Path\":".data

/-- The pattern `"Path":\s*"[./]` anchored at the head of `cs`: the literal
`"Path":`, then any run of `\s`, then a double quote, then `.` or `/`.
A double quote is not in `\s`, so the greedy run never has to give back. -/
def localReplacePattern.matchHere (cs : List Char) : Bool :=
  localReplacePattern.literal.isPrefixOf cs &&
  match (cs.drop localReplacePattern.literal.length).dropWhile reSpace with
  | q :: c :: _ => q == dquote && (c == '.' || c == '/')
  | _ => false

/-- The unanchored search of `regexp.Match`: the pattern matches at some position. -/
def localReplacePattern.search : List Char → Bool
  | [] => false
  | c :: cs => localReplacePattern.matchHere (c :: cs) || localReplacePattern.search cs

/-- The call `localReplacePattern.Match(output)` of `checkNoLocalReplace`. -/
def localReplacePattern.Match (output : String) : Bool :=
  localReplacePattern.search output.data

/-! ## The environment -/

/-- One call that a check makes to the outside world. -/
inductive Call where
  /-- The call `exec.Command(prog, args...)` with `cmd.Dir = dir`, then `cmd.Output()`. -/
  | cmdOutput (dir prog : String) (args : List String)
  /-- The call `CommandExists(prog)`. -/
  | commandExists (prog : String)
  /-- The call `RunCommand(name, dir, prog, args...)`. -/
  | runCommand (name dir prog : String) (args : List String)
  /-- The call `fmt.Printf` with the text it prints. -/
  | printf (text : String)
deriving DecidableEq, Repr

/-- The calls made so far, oldest first. -/
abbrev Trace := List Call

/-- The outside world.  `cmdOutput` is `exec.Cmd.Output` (captured standard
output and the error); `CommandExists` and `RunCommand` are the helpers of
package `checks` whose source is not at hand, taken as parameters.  Each
answer may depend on every call made before. -/
structure Env where
  cmdOutput : Trace → String → String → List String → String × Option String
  CommandExists : Trace → String → Bool
  RunCommand : Trace → String → String → String → List String → Result

/-! ## `GoChecker` -/

/-- The method `GoChecker.Name`. -/
def GoChecker.Name : String := "Go"

/-- The method `GoChecker.checkNoLocalReplace`. -/
def GoChecker.checkNoLocalReplace (env : Env) (dir : String) (t : Trace) : Result × Trace :=
  let name := "Go: no local replace directives"
  let r := env.cmdOutput t dir "go" ["mod", "edit", "-json"]
  let output := r.1
  let err := r.2
  let t := t ++ [Call.cmdOutput dir "go" ["mod", "edit", "-json"]]
  match err with
  | some e => ({ Name := name, Passed := false, Error := some e }, t)
  | none =>
    if localReplacePattern.Match output then
      ({ Name := name, Passed := false, Output := "go.mod contains local replace directives" }, t)
    else
      ({ Name := name, Passed := true }, t)

/-- The method `GoChecker.checkFormat`. -/
def GoChecker.checkFormat (env : Env) (dir : String) (t : Trace) : Result × Trace :=
  let name := "Go: gofmt"
  let r := env.cmdOutput t dir "gofmt" ["-l", "."]
  let output := r.1
  let err := r.2
  let t := t ++ [Call.cmdOutput dir "gofmt" ["-l", "."]]
  match err with
  | some e => ({ Name := name, Passed := false, Error := some e }, t)
  | none =>
    let unformatted := TrimSpace output
    if unformatted ≠ "" then
      ({ Name := name, Passed := false, Output := "Files need formatting:\n" ++ unformatted }, t)
    else
      ({ Name := name, Passed := true }, t)

/-- The method `GoChecker.checkLint`. -/
def GoChecker.checkLint (env : Env) (dir : String) (t : Trace) : Result × Trace :=
  let name := "Go: golangci-lint"
  let found := env.CommandExists t "golangci-lint"
  let t := t ++ [Call.commandExists "golangci-lint"]
  if !found then
    ({ Name := name, Skipped := true, Reason := "golangci-lint not installed" }, t)
  else
    (env.RunCommand t name dir "golangci-lint" ["run"],
      t ++ [Call.runCommand name dir "golangci-lint" ["run"]])

/-- The method `GoChecker.checkTest`. -/
def GoChecker.checkTest (env : Env) (dir : String) (t : Trace) : Result × Trace :=
  let name := "Go: tests"
  (env.RunCommand t name dir "go" ["test", "./..."],
    t ++ [Call.runCommand name dir "go" ["test", "./..."]])

/-- The method `GoChecker.checkCoverage`. -/
def GoChecker.checkCoverage (env : Env) (dir : String) (exclude : String) (t : Trace) :
    Result × Trace :=
  let name := "Go: coverage"
  let found := env.CommandExists t "gocoverbadge"
  let t := t ++ [Call.commandExists "gocoverbadge"]
  if !found then
    ({ Name := name, Skipped := true, Reason := "gocoverbadge not installed" }, t)
  else
    let args := ["-dir", dir, "-badge-only"]
    let args := if exclude ≠ "" then args ++ ["-exclude", exclude] else args
    let result := env.RunCommand t name dir "gocoverbadge" args
    let t := t ++ [Call.runCommand name dir "gocoverbadge" args]
    -- Coverage is informational, always passes
    let result := { result with Passed := true }
    let t := if result.Error = none then t ++ [Call.printf ("  " ++ result.Output ++ "\n")] else t
    (result, t)

/-- The method `GoChecker.Check`. -/
def GoChecker.Check (env : Env) (dir : String) (opts : Options) (t : Trace) :
    List Result × Trace :=
  let results : List Result := []
  -- Check for local replace directives
  let r := GoChecker.checkNoLocalReplace env dir t
  let results := results ++ [r.1]
  let t := r.2
  -- Format check
  let s := if opts.Format then
      let r := GoChecker.checkFormat env dir t
      (results ++ [r.1], r.2)
    else (results, t)
  -- Lint check
  let s := if opts.Lint then
      let r := GoChecker.checkLint env dir s.2
      (s.1 ++ [r.1], r.2)
    else s
  -- Test check
  let s := if opts.Test then
      let r := GoChecker.checkTest env dir s.2
      (s.1 ++ [r.1], r.2)
    else s
  -- Coverage check (informational)
  let s := if opts.Coverage then
      let r := GoChecker.checkCoverage env dir opts.GoExcludeCoverage s.2
      (s.1 ++ [r.1], r.2)
    else s
  s

/-! ## Properties of environments, options and Results -/

/-- The executor labels its Result with the display name it is given (the
contract of `RunCommand`: "a display name for the resulting Result"). -/
def Env.KeepsName (env : Env) : Prop :=
  ∀ t name dir prog args, (env.RunCommand t name dir prog args).Name = name

/-- The assumption of C9 on the command executor: its Results are never
skipped, and passed exactly when the error is nil. -/
def Env.ExecutorWellFormed (env : Env) : Prop :=
  ∀ t name dir prog args,
    (env.RunCommand t name dir prog args).Skipped = false ∧
    ((env.RunCommand t name dir prog args).Passed = true ↔
      (env.RunCommand t name dir prog args).Error = none)

/-- The executor gives its Results no skip reason. -/
def Env.ExecutorNoReason (env : Env) : Prop :=
  ∀ t name dir prog args, (env.RunCommand t name dir prog args).Reason = ""

/-- The number of gated sub-checks that the options enable. -/
def Options.enabledCount (opts : Options) : Nat :=
  (if opts.Format then 1 else 0) + (if opts.Lint then 1 else 0) +
  (if opts.Test then 1 else 0) + (if opts.Coverage then 1 else 0)

/-- A Result with a reason exactly when skipped, and neither passed nor in
error when skipped. -/
def Result.SkipConsistent (r : Result) : Prop :=
  (r.Reason ≠ "" ↔ r.Skipped = true) ∧ (r.Skipped = true → r.Passed = false ∧ r.Error = none)

/-- A Result that is not passed and in error at once. -/
def Result.PassConsistent (r : Result) : Prop :=
  ¬ (r.Passed = true ∧ r.Error ≠ none)

/-! ## Sample environments and manifests -/

/-- An environment in which every tool is installed and succeeds with the given
manifest text and formatter listing. -/
def envOk (manifest listing : String) : Env where
  cmdOutput := fun _ _ prog _ => if prog = "go" then (manifest, none) else (listing, none)
  CommandExists := fun _ _ => true
  RunCommand := fun _ name _ _ _ => { Name := name, Passed := true, Output := "ok" }

/-- An environment in which `gofmt -l .` succeeds and lists two files. -/
def envUnformatted : Env := envOk "" "main.go\npkg/util.go\n"

/-- An environment in which `gofmt -l .` succeeds and lists the files ` a.go`
(its name begins with a space) and `b.go`. -/
def envLeadingSpaceName : Env := envOk "" " a.go\nb.go\n"

/-- An environment in which `gofmt -l .` succeeds and prints white space only. -/
def envBlankListing : Env := envOk "" " \n\t"

/-- An environment in which the coverage tool is installed and its invocation
exits non-zero. -/
def envCoverageFails : Env where
  cmdOutput := fun _ _ _ _ => ("", none)
  CommandExists := fun _ _ => true
  RunCommand := fun _ name _ prog _ =>
    if prog = "gocoverbadge" then
      { Name := name, Passed := false, Output := "no coverage", Error := some "exit status 1" }
    else { Name := name, Passed := true }

/-- An environment in which neither optional tool is installed. -/
def envNoOptionalTools : Env where
  cmdOutput := fun _ _ _ _ => ("", none)
  CommandExists := fun _ prog => !(prog = "golangci-lint" || prog = "gocoverbadge")
  RunCommand := fun _ name _ _ _ => { Name := name, Passed := true }

/-- An environment in which `gofmt -l .` lists a file on standard output and
then exits with status 2 (another file did not parse). -/
def envFormatterFails : Env where
  cmdOutput := fun _ _ prog _ =>
    if prog = "gofmt" then ("main.go\n", some "exit status 2") else ("", none)
  CommandExists := fun _ _ => true
  RunCommand := fun _ name _ _ _ => { Name := name, Passed := true }

/-- An environment whose executor meets the assumption of C9 (never skipped,
passed exactly when the error is nil) and fills in the `Reason` field. -/
def envExecutorGivesReason : Env where
  cmdOutput := fun _ _ _ _ => ("", none)
  CommandExists := fun _ _ => true
  RunCommand := fun _ name _ _ _ => { Name := name, Passed := true, Reason := "cached" }

/-- Manifest text in the format of `go mod edit -json`, for a go.mod that
declares module `example.com/app`, has no `replace` directive, and has the
directive `ignore ./node_modules`. -/
def manifestIgnore : String :=
  "\x7b\n\t\"Module\": \x7b\n\t\t\"Path\": \"example.com/app\"\n\t\x7d,\n\t\"Go\": \"1.25\",\n\t\"Require\": null,\n\t\"Exclude\": null,\n\t\"Replace\": null,\n\t\"Retract\": null,\n\t\"Tool\": null,\n\t\"Ignore\": [\n\t\t\x7b\n\t\t\t\"Path\": \"./node_modules\"\n\t\t\x7d\n\t]\n\x7d\n"

/-- Manifest text in the format of `go mod edit -json`, for a go.mod whose only
line is `module ./app`: no `replace` directive at all. -/
def manifestDotModule : String :=
  "\x7b\n\t\"Module\": \x7b\n\t\t\"Path\": \"./app\"\n\t\x7d,\n\t\"Require\": null,\n\t\"Exclude\": null,\n\t\"Replace\": null,\n\t\"Retract\": null\n\x7d\n"

/-- Manifest text in the format of `go mod edit -json`, for a go.mod with one
local replace directive, `replace example.com/lib => ../lib`. -/
def manifestLocalReplace : String :=
  "\x7b\n\t\"Module\": \x7b\n\t\t\"Path\": \"example.com/app\"\n\t\x7d,\n\t\"Go\": \"1.21\",\n\t\"Require\": null,\n\t\"Exclude\": null,\n\t\"Replace\": [\n\t\t\x7b\n\t\t\t\"Old\": \x7b\n\t\t\t\t\"Path\": \"example.com/lib\"\n\t\t\t\x7d,\n\t\t\t\"New\": \x7b\n\t\t\t\t\"Path\": \"../lib\"\n\t\t\t\x7d\n\t\t\x7d\n\t],\n\t\"Retract\": null\n\x7d\n"

/-- Manifest text in the format of `go mod edit -json`, for a go.mod with one
replace directive whose target is a module, not a path:
`replace example.com/lib => example.com/fork v1.2.3`. -/
def manifestRemoteReplace : String :=
  "\x7b\n\t\"Module\": \x7b\n\t\t\"Path\": \"example.com/app\"\n\t\x7d,\n\t\"Go\": \"1.21\",\n\t\"Require\": null,\n\t\"Exclude\": null,\n\t\"Replace\": [\n\t\t\x7b\n\t\t\t\"Old\": \x7b\n\t\t\t\t\"Path\": \"example.com/lib\"\n\t\t\t\x7d,\n\t\t\t\"New\": \x7b\n\t\t\t\t\"Path\": \"example.com/fork\",\n\t\t\t\t\"Version\": \"v1.2.3\"\n\t\t\t\x7d\n\t\t\x7d\n\t],\n\t\"Retract\": null\n\x7d\n"

end Checks

/-! ## The `check` command -/

namespace Main

open Checks

/-- The command's flags: the package-level variables `noTest`, `noLint`,
`noFormat`, `coverage`, `goNoGoMode` (all registered with default `false`) and
the root command's `cfgVerbose`. -/
structure Flags where
  noTest : Bool := false
  noLint : Bool := false
  noFormat : Bool := false
  coverage : Bool := false
  goNoGoMode : Bool := false
  cfgVerbose : Bool := false
deriving DecidableEq, Repr

/-- Modelled from the spec: the configuration that `config.Load` returns; only
its field `Verbose` is used by `runCheck`. -/
structure Config where
  Verbose : Bool := false
deriving DecidableEq, Repr

/-- Modelled from the spec: a detection, the pair of a language and the path
where it was found. -/
structure Detection where
  Language : String
  Path : String
deriving DecidableEq, Repr

/-- One line that `runCheck` itself writes. -/
inductive Out where
  | stdout (text : String)
  | stderr (text : String)
deriving DecidableEq, Repr

/-- How `runCheck` ends: by `os.Exit(status)`, or by returning to its caller. -/
inductive Ending where
  | exited (status : Nat)
  | returned
deriving DecidableEq, Repr

/-- What `runCheck` consumes from outside its file: the file system, the
configuration loader, the requirements check, the language detector, the
releasekit runner and the two reporters (what the reporters print is not
recorded). -/
structure World where
  /-- Whether `os.IsNotExist(err)` holds for the error of `os.Stat(dir)`. -/
  dirNotExist : String → Bool
  /-- The call `config.Load(dir)`. -/
  configLoad : String → Config × Option String
  /-- The answer of `AllSatisfied()` on the result of `EnsureRequirements`. -/
  allSatisfied : Bool
  /-- The text of `requirements.FormatMissingError(result)`. -/
  missingError : String
  /-- The call `detect.Detect(dir)`. -/
  Detect : String → List Detection × Option String
  /-- The call `checks.RunReleasekit(dir, opts)`. -/
  RunReleasekit : String → Options → List Result × Option String
  /-- The call `checks.PrintGoNoGoReport(allResults, verbose)`. -/
  PrintGoNoGoReport : List Result → Bool → Bool
  /-- The call `checks.PrintResults(allResults, verbose)`: passed, failed,
  skipped, warnings. -/
  PrintResults : List Result → Bool → Int × Int × Int × Int

/-- The directory to check (`runCheck`, lines 53-57). -/
def runCheck.dir (args : List String) : String :=
  match args with
  | [] => "."
  | a :: _ => a

/-- The configuration after the flag override (`runCheck`, lines 65-74). -/
def runCheck.cfg (fl : Flags) (w : World) (dir : String) : Config :=
  let cfg := (w.configLoad dir).1
  if fl.cfgVerbose then { cfg with Verbose := true } else cfg

/-- The options built from flags and config (`runCheck`, lines 107-114). -/
def runCheck.opts (fl : Flags) (cfg : Config) : Options :=
  { Test := !fl.noTest,
    Lint := !fl.noLint,
    Format := !fl.noFormat,
    Coverage := fl.coverage,
    Verbose := cfg.Verbose }

/-- The summary step (`runCheck`, lines 125-155). -/
def runCheck.summary (fl : Flags) (w : World) (cfg : Config) (allResults : List Result) :
    List Out × Ending :=
  if fl.goNoGoMode then
    -- NASA-style Go/No-Go report
    let allGo := w.PrintGoNoGoReport allResults cfg.Verbose
    if !allGo then ([], Ending.exited 1) else ([], Ending.returned)
  else
    -- Standard report
    let out := [Out.stdout "=== Summary ===\n"]
    let counts := w.PrintResults allResults cfg.Verbose
    let passed := counts.1
    let failed := counts.2.1
    let skipped := counts.2.2.1
    let warnings := counts.2.2.2
    let out := out ++ [Out.stdout "\n"]
    let out := out ++
      (if warnings > 0 then
        [Out.stdout ("Passed: " ++ toString passed ++ ", Failed: " ++ toString failed ++
          ", Skipped: " ++ toString skipped ++ ", Warnings: " ++ toString warnings ++ "\n")]
      else
        [Out.stdout ("Passed: " ++ toString passed ++ ", Failed: " ++ toString failed ++
          ", Skipped: " ++ toString skipped ++ "\n")])
    if failed > 0 then
      (out ++ [Out.stdout "\n", Out.stdout "Pre-push checks failed!\n"], Ending.exited 1)
    else
      let out := out ++ [Out.stdout "\n"]
      if warnings > 0 then
        (out ++ [Out.stdout "Pre-push checks passed with warnings.\n"], Ending.returned)
      else
        (out ++ [Out.stdout "All pre-push checks passed!\n"], Ending.returned)

/-- The function `runCheck`. -/
def runCheck (fl : Flags) (w : World) (args : List String) : List Out × Ending :=
  -- Get directory to check
  let dir := runCheck.dir args
  -- Make sure directory exists
  if w.dirNotExist dir then
    ([Out.stderr ("Error: directory " ++ dir ++ " does not exist\n")], Ending.exited 1)
  else
    -- Load configuration
    let out := match (w.configLoad dir).2 with
      | some err => [Out.stderr ("Warning: error loading config: " ++ err ++ "\n")]
      | none => []
    -- Override config with flags
    let cfg := runCheck.cfg fl w dir
    -- Check if releasekit is available
    if !w.allSatisfied then
      (out ++ [Out.stderr "Cannot proceed without required tools\n", Out.stderr w.missingError],
        Ending.exited 1)
    else
      -- Detect languages
      let out := out ++ [Out.stdout "=== Pre-push Checks ===\n", Out.stdout "\n",
        Out.stdout "Detecting languages...\n"]
      match (w.Detect dir).2 with
      | some err =>
        (out ++ [Out.stderr ("Error detecting languages: " ++ err ++ "\n")], Ending.exited 1)
      | none =>
        let detections := (w.Detect dir).1
        if detections.length = 0 then
          (out ++ [Out.stdout "No supported languages detected.\n"], Ending.exited 0)
        else
          -- Print detected languages
          let out := out ++ detections.map
            (fun d => Out.stdout ("  Found: " ++ d.Language ++ " in " ++ d.Path ++ "\n"))
          let out := out ++ [Out.stdout "\n"]
          -- Build options from flags and config
          let opts := runCheck.opts fl cfg
          -- Run releasekit validate (auto-detects languages)
          let out := out ++ [Out.stdout "Running checks via releasekit...\n"]
          match (w.RunReleasekit dir opts).2 with
          | some err =>
            (out ++ [Out.stderr ("Error running releasekit: " ++ err ++ "\n")], Ending.exited 1)
          | none =>
            let allResults := (w.RunReleasekit dir opts).1
            let out := out ++ [Out.stdout "\n"]
            -- Print summary
            let s := runCheck.summary fl w cfg allResults
            (out ++ s.1, s.2)

/-- A world in which one Go project is detected and the reporters answer with
the given counts and gate. -/
def worldWith (counts : Int × Int × Int × Int) (allGo : Bool) : World where
  dirNotExist := fun _ => false
  configLoad := fun _ => ({}, none)
  allSatisfied := true
  missingError := ""
  Detect := fun dir => ([{ Language := "go", Path := dir }], none)
  RunReleasekit := fun _ _ => ([{ Name := "Go: tests", Passed := true }], none)
  PrintGoNoGoReport := fun _ _ => allGo
  PrintResults := fun _ _ => counts

end Main

namespace Checks

/-! ## The pattern of `checkNoLocalReplace` -/

/-- Dropping a run of characters that satisfy `p` stops at the first that does not. -/
theorem dropWhile_run (p : Char → Bool) (ws rest : List Char) (x : Char)
    (hws : ∀ w ∈ ws, p w = true) (hx : p x = false) :
    (ws ++ x :: rest).dropWhile p = x :: rest := by
  induction ws with
  | nil => simp [List.dropWhile, hx]
  | cons w ws ih =>
    have hw : p w = true := hws w (List.mem_cons_self _ _)
    simp only [List.cons_append, List.dropWhile, hw]
    exact ih (fun a ha => hws a (List.mem_cons_of_mem _ ha))

/-- The anchored matcher accepts exactly the texts that begin with `"Path":`,
then a run of `\s`, then a double quote, then `.` or `/`. -/
theorem matchHere_iff (cs : List Char) :
    localReplacePattern.matchHere cs = true ↔
      ∃ ws c rest, cs = localReplacePattern.literal ++ ws ++ dquote :: c :: rest ∧
        (∀ w ∈ ws, reSpace w = true) ∧ (c = '.' ∨ c = '/') := by
  unfold localReplacePattern.matchHere
  constructor
  · intro h
    rw [Bool.and_eq_true] at h
    obtain ⟨hp, hm⟩ := h
    rw [List.isPrefixOf_iff_prefix] at hp
    obtain ⟨r, rfl⟩ := hp
    rw [List.drop_left] at hm
    have hsplit := List.takeWhile_append_dropWhile reSpace r
    split at hm
    · rename_i q c rest hd
      refine ⟨r.takeWhile reSpace, c, rest, ?_, fun w hw => (List.mem_takeWhile_imp hw), ?_⟩
      · have hq : q = dquote := by
          have := (Bool.and_eq_true _ _).mp hm
          exact eq_of_beq this.1
        rw [List.append_assoc, ← hq, ← hd, hsplit]
      · have := ((Bool.and_eq_true _ _).mp hm).2
        simpa using this
    · exact absurd hm (by simp)
  · rintro ⟨ws, c, rest, rfl, hws, hc⟩
    rw [Bool.and_eq_true]
    constructor
    · rw [List.isPrefixOf_iff_prefix, List.append_assoc]
      exact List.prefix_append _ _
    · rw [List.append_assoc, List.drop_left, dropWhile_run reSpace ws (c :: rest) dquote hws (by decide)]
      rcases hc with rfl | rfl <;> simp

/-- The search accepts exactly the texts that hold a match of the pattern
`"Path":\s*"[./]` at some position. -/
theorem search_iff (cs : List Char) :
    localReplacePattern.search cs = true ↔
      ∃ pre ws c rest, cs = pre ++ localReplacePattern.literal ++ ws ++ dquote :: c :: rest ∧
        (∀ w ∈ ws, reSpace w = true) ∧ (c = '.' ∨ c = '/') := by
  induction cs with
  | nil =>
    simp only [localReplacePattern.search, Bool.false_eq_true, false_iff]
    rintro ⟨pre, ws, c, rest, h, -⟩
    have := congrArg List.length h
    simp at this
    omega
  | cons a cs ih =>
    simp only [localReplacePattern.search, Bool.or_eq_true, matchHere_iff, ih]
    constructor
    · rintro (⟨ws, c, rest, h, hws, hc⟩ | ⟨pre, ws, c, rest, h, hws, hc⟩)
      · exact ⟨[], ws, c, rest, by simpa using h, hws, hc⟩
      · exact ⟨a :: pre, ws, c, rest, by simp [h], hws, hc⟩
    · rintro ⟨pre, ws, c, rest, h, hws, hc⟩
      cases pre with
      | nil => exact Or.inl ⟨ws, c, rest, by simpa using h, hws, hc⟩
      | cons b pre =>
        simp only [List.cons_append, List.cons.injEq] at h
        exact Or.inr ⟨pre, ws, c, rest, h.2, hws, hc⟩

/-! ## Names of the sub-check Results -/

theorem checkNoLocalReplace_name (env : Env) (dir : String) (t : Trace) :
    (GoChecker.checkNoLocalReplace env dir t).1.Name = "Go: no local replace directives" := by
  unfold GoChecker.checkNoLocalReplace
  dsimp only
  split
  · rfl
  · split <;> rfl

theorem checkFormat_name (env : Env) (dir : String) (t : Trace) :
    (GoChecker.checkFormat env dir t).1.Name = "Go: gofmt" := by
  unfold GoChecker.checkFormat
  dsimp only
  split
  · rfl
  · split <;> rfl

theorem checkLint_name (env : Env) (h : env.KeepsName) (dir : String) (t : Trace) :
    (GoChecker.checkLint env dir t).1.Name = "Go: golangci-lint" := by
  unfold GoChecker.checkLint
  dsimp only
  split
  · rfl
  · exact h _ _ _ _ _

theorem checkTest_name (env : Env) (h : env.KeepsName) (dir : String) (t : Trace) :
    (GoChecker.checkTest env dir t).1.Name = "Go: tests" := by
  unfold GoChecker.checkTest
  exact h _ _ _ _ _

theorem checkCoverage_name (env : Env) (h : env.KeepsName) (dir exclude : String) (t : Trace) :
    (GoChecker.checkCoverage env dir exclude t).1.Name = "Go: coverage" := by
  unfold GoChecker.checkCoverage
  dsimp only
  split
  · rfl
  · exact h _ _ _ _ _

/-- The names of the Results of `Check`, in order, depend on the options only. -/
theorem Check_names (env : Env) (h : env.KeepsName) (dir : String) (opts : Options) (t : Trace) :
    (GoChecker.Check env dir opts t).1.map Result.Name =
      ["Go: no local replace directives"] ++ (if opts.Format then ["Go: gofmt"] else []) ++
      (if opts.Lint then ["Go: golangci-lint"] else []) ++
      (if opts.Test then ["Go: tests"] else []) ++
      (if opts.Coverage then ["Go: coverage"] else []) := by
  unfold GoChecker.Check
  cases hF : opts.Format <;> cases hL : opts.Lint <;> cases hT : opts.Test <;>
    cases hC : opts.Coverage <;>
    simp [checkNoLocalReplace_name, checkFormat_name, checkLint_name env h, checkTest_name env h,
      checkCoverage_name env h]

theorem envOk_keepsName (manifest listing : String) : (envOk manifest listing).KeepsName :=
  fun _ _ _ _ _ => rfl

/-! ## The sequence returned by `GoChecker.Check` -/

/-- C1: a gated sub-check whose option is disabled contributes no Result to
`GoChecker.Check`: with `Format` off no Result is named "Go: gofmt", with
`Lint` off none "Go: golangci-lint", with `Test` off none "Go: tests", with
`Coverage` off none "Go: coverage" (the executor labelling each Result with
the name it was given). -/
theorem Check_omits_disabled (env : Env) (h : env.KeepsName) (dir : String) (opts : Options)
    (t : Trace) :
    (opts.Format = false → ∀ r ∈ (GoChecker.Check env dir opts t).1, r.Name ≠ "Go: gofmt") ∧
    (opts.Lint = false →
      ∀ r ∈ (GoChecker.Check env dir opts t).1, r.Name ≠ "Go: golangci-lint") ∧
    (opts.Test = false → ∀ r ∈ (GoChecker.Check env dir opts t).1, r.Name ≠ "Go: tests") ∧
    (opts.Coverage = false →
      ∀ r ∈ (GoChecker.Check env dir opts t).1, r.Name ≠ "Go: coverage") := by
  have key : ∀ n : String, n ∉ (GoChecker.Check env dir opts t).1.map Result.Name →
      ∀ r ∈ (GoChecker.Check env dir opts t).1, r.Name ≠ n := by
    intro n hn r hr hEq
    exact hn (hEq ▸ List.mem_map_of_mem Result.Name hr)
  rw [Check_names env h] at key
  refine ⟨fun hF => key _ ?_, fun hL => key _ ?_, fun hT => key _ ?_, fun hC => key _ ?_⟩
  · cases hL : opts.Lint <;> cases hT : opts.Test <;> cases hC : opts.Coverage <;>
      simp [hF]
  · cases hF : opts.Format <;> cases hT : opts.Test <;> cases hC : opts.Coverage <;>
      simp [hL]
  · cases hF : opts.Format <;> cases hL : opts.Lint <;> cases hC : opts.Coverage <;>
      simp [hT]
  · cases hF : opts.Format <;> cases hL : opts.Lint <;> cases hT : opts.Test <;>
      simp [hC]

/-- C1 at a concrete input: every tool installed and passing, only
`Format` disabled. -/
theorem Check_omits_disabled_witness :
    (envOk "" "").KeepsName ∧
    ∀ r ∈ (GoChecker.Check (envOk "" "") "." { Test := true, Lint := true, Coverage := true } []).1,
      r.Name ≠ "Go: gofmt" :=
  ⟨envOk_keepsName _ _,
    (Check_omits_disabled (envOk "" "") (envOk_keepsName _ _) "."
      { Test := true, Lint := true, Coverage := true } []).1 rfl⟩

/-- The Results of `Check`, written out: the sub-check Results in source
order, each sub-check run on the trace left by the ones before it. -/
theorem Check_results (env : Env) (dir : String) (opts : Options) (t : Trace) :
    let r0 := GoChecker.checkNoLocalReplace env dir t
    let rF := GoChecker.checkFormat env dir r0.2
    let t1 := if opts.Format then rF.2 else r0.2
    let rL := GoChecker.checkLint env dir t1
    let t2 := if opts.Lint then rL.2 else t1
    let rT := GoChecker.checkTest env dir t2
    let t3 := if opts.Test then rT.2 else t2
    let rC := GoChecker.checkCoverage env dir opts.GoExcludeCoverage t3
    (GoChecker.Check env dir opts t).1 =
        [r0.1] ++ (if opts.Format then [rF.1] else []) ++ (if opts.Lint then [rL.1] else []) ++
        (if opts.Test then [rT.1] else []) ++ (if opts.Coverage then [rC.1] else []) := by
  unfold GoChecker.Check
  cases hF : opts.Format <;> cases hL : opts.Lint <;> cases hT : opts.Test <;>
    cases hC : opts.Coverage <;> simp

/-- C2: `GoChecker.Check` returns the Results of the enabled sub-checks in the
order no-local-replace, format, lint, test, coverage, each run after the ones
before it, whatever their outcomes; the no-local-replace Result is first, and
the length is 1 plus the number of enabled options.  When the executor labels
its Results with the names it is given, the names of the returned Results are
fixed by the options alone. -/
theorem Check_order (env : Env) (dir : String) (opts : Options) (t : Trace) :
    let r0 := GoChecker.checkNoLocalReplace env dir t
    let rF := GoChecker.checkFormat env dir r0.2
    let t1 := if opts.Format then rF.2 else r0.2
    let rL := GoChecker.checkLint env dir t1
    let t2 := if opts.Lint then rL.2 else t1
    let rT := GoChecker.checkTest env dir t2
    let t3 := if opts.Test then rT.2 else t2
    let rC := GoChecker.checkCoverage env dir opts.GoExcludeCoverage t3
    (GoChecker.Check env dir opts t).1 =
        [r0.1] ++ (if opts.Format then [rF.1] else []) ++ (if opts.Lint then [rL.1] else []) ++
        (if opts.Test then [rT.1] else []) ++ (if opts.Coverage then [rC.1] else []) ∧
      (GoChecker.Check env dir opts t).1.head? = some r0.1 ∧
      (GoChecker.Check env dir opts t).1.length = 1 + opts.enabledCount ∧
      (env.KeepsName →
        (GoChecker.Check env dir opts t).1.map Result.Name =
          ["Go: no local replace directives"] ++ (if opts.Format then ["Go: gofmt"] else []) ++
          (if opts.Lint then ["Go: golangci-lint"] else []) ++
          (if opts.Test then ["Go: tests"] else []) ++
          (if opts.Coverage then ["Go: coverage"] else [])) := by
  have h := Check_results env dir opts t
  refine ⟨h, ?_, ?_, fun hK => Check_names env hK dir opts t⟩
  · rw [h]
    simp
  · rw [h]
    unfold Options.enabledCount
    cases hF : opts.Format <;> cases hL : opts.Lint <;> cases hT : opts.Test <;>
      cases hC : opts.Coverage <;> simp

/-- C2 at a concrete input: the formatter fails, lint is disabled, and the test
and coverage Results still follow in order. -/
theorem Check_order_witness :
    (GoChecker.Check envFormatterFails "." { Test := true, Format := true, Coverage := true }
        []).1.length = 4 ∧
    (GoChecker.Check envFormatterFails "." { Test := true, Format := true, Coverage := true }
        []).1.map Result.Name =
      ["Go: no local replace directives", "Go: gofmt", "Go: tests", "Go: coverage"] :=
  have h := Check_order envFormatterFails "." { Test := true, Format := true, Coverage := true } []
  ⟨h.2.2.1, h.2.2.2 (fun _ _ _ _ _ => rfl)⟩

/-! ## The coverage and lint sub-checks -/

/-- C3: with the coverage tool installed, whatever Result `r` the executor
returns for the coverage invocation, `checkCoverage` returns `r` with `Passed`
forced to true: `Name`, `Output`, `Error`, `Skipped` and `Reason` are those
of `r`. -/
theorem checkCoverage_forced_pass (env : Env) (dir exclude : String) (t : Trace) (r : Result)
    (hExists : env.CommandExists t "gocoverbadge" = true)
    (hr : env.RunCommand (t ++ [Call.commandExists "gocoverbadge"]) "Go: coverage" dir
      "gocoverbadge"
      (if exclude ≠ "" then ["-dir", dir, "-badge-only", "-exclude", exclude]
        else ["-dir", dir, "-badge-only"]) = r) :
    (GoChecker.checkCoverage env dir exclude t).1.Passed = true ∧
    (GoChecker.checkCoverage env dir exclude t).1.Name = r.Name ∧
    (GoChecker.checkCoverage env dir exclude t).1.Output = r.Output ∧
    (GoChecker.checkCoverage env dir exclude t).1.Error = r.Error ∧
    (GoChecker.checkCoverage env dir exclude t).1.Skipped = r.Skipped ∧
    (GoChecker.checkCoverage env dir exclude t).1.Reason = r.Reason := by
  subst hr
  unfold GoChecker.checkCoverage
  by_cases hx : exclude = "" <;> simp [hExists, hx]

/-- C3 at a concrete input: the tool exits non-zero and the
sub-check still passes. -/
theorem checkCoverage_forced_pass_witness :
    envCoverageFails.CommandExists [] "gocoverbadge" = true ∧
    envCoverageFails.RunCommand [Call.commandExists "gocoverbadge"] "Go: coverage" "."
        "gocoverbadge" ["-dir", ".", "-badge-only", "-exclude", "cmd"] =
      { Name := "Go: coverage", Passed := false, Output := "no coverage",
        Error := some "exit status 1" } ∧
    (GoChecker.checkCoverage envCoverageFails "." "cmd" []).1.Passed = true ∧
    (GoChecker.checkCoverage envCoverageFails "." "cmd" []).1.Error = some "exit status 1" :=
  have h := checkCoverage_forced_pass envCoverageFails "." "cmd" []
    { Name := "Go: coverage", Passed := false, Output := "no coverage",
      Error := some "exit status 1" } rfl rfl
  ⟨rfl, rfl, h.1, h.2.2.2.1⟩

/-- C4: when `CommandExists` reports the tool absent, the lint sub-check
(golangci-lint) and the coverage sub-check (gocoverbadge) each return one
Result with `Skipped` true, a non-empty `Reason`, `Passed` false and a nil
`Error`, and the only call made is the `CommandExists` query: the executor is
not invoked. -/
theorem missing_tool_skips (env : Env) (dir exclude : String) (t : Trace) :
    (env.CommandExists t "golangci-lint" = false →
      (GoChecker.checkLint env dir t).1.Skipped = true ∧
      (GoChecker.checkLint env dir t).1.Reason ≠ "" ∧
      (GoChecker.checkLint env dir t).1.Passed = false ∧
      (GoChecker.checkLint env dir t).1.Error = none ∧
      (GoChecker.checkLint env dir t).2 = t ++ [Call.commandExists "golangci-lint"]) ∧
    (env.CommandExists t "gocoverbadge" = false →
      (GoChecker.checkCoverage env dir exclude t).1.Skipped = true ∧
      (GoChecker.checkCoverage env dir exclude t).1.Reason ≠ "" ∧
      (GoChecker.checkCoverage env dir exclude t).1.Passed = false ∧
      (GoChecker.checkCoverage env dir exclude t).1.Error = none ∧
      (GoChecker.checkCoverage env dir exclude t).2 = t ++ [Call.commandExists "gocoverbadge"]) := by
  constructor
  · intro h
    unfold GoChecker.checkLint
    simp [h]
  · intro h
    unfold GoChecker.checkCoverage
    simp [h]

/-- C4 at a concrete input: neither tool installed. -/
theorem missing_tool_skips_witness :
    envNoOptionalTools.CommandExists [] "golangci-lint" = false ∧
    envNoOptionalTools.CommandExists [] "gocoverbadge" = false ∧
    (GoChecker.checkLint envNoOptionalTools "." []).1.Skipped = true ∧
    (GoChecker.checkLint envNoOptionalTools "." []).2 = [Call.commandExists "golangci-lint"] ∧
    (GoChecker.checkCoverage envNoOptionalTools "." "cmd" []).1.Skipped = true ∧
    (GoChecker.checkCoverage envNoOptionalTools "." "cmd" []).2 =
      [Call.commandExists "gocoverbadge"] :=
  have h := missing_tool_skips envNoOptionalTools "." "cmd" []
  ⟨rfl, rfl, (h.1 rfl).1, (h.1 rfl).2.2.2.2, (h.2 rfl).1, (h.2 rfl).2.2.2.2⟩

/-! ## The no-local-replace sub-check -/

/-- Outcome of `checkNoLocalReplace` when `go mod edit -json` succeeds: failed
with the explanatory Output when the pattern matches the manifest text,
passed otherwise. -/
theorem checkNoLocalReplace_success (env : Env) (dir : String) (t : Trace)
    (h : (env.cmdOutput t dir "go" ["mod", "edit", "-json"]).2 = none) :
    (GoChecker.checkNoLocalReplace env dir t).1 =
      if localReplacePattern.Match (env.cmdOutput t dir "go" ["mod", "edit", "-json"]).1 then
        { Name := "Go: no local replace directives", Passed := false,
          Output := "go.mod contains local replace directives" }
      else { Name := "Go: no local replace directives", Passed := true } := by
  unfold GoChecker.checkNoLocalReplace
  simp only [h]
  split <;> rfl

/-- C5: on the manifest of a go.mod without any replace directive but with
`ignore ./node_modules`, `checkNoLocalReplace` fails with Output "go.mod
contains local replace directives": the pattern matches the `Path` field of
the ignore entry. -/
theorem checkNoLocalReplace_flags_ignore_path :
    (GoChecker.checkNoLocalReplace (envOk manifestIgnore "") "." []).1 =
      { Name := "Go: no local replace directives", Passed := false,
        Output := "go.mod contains local replace directives" } := by
  decide

/-- The same on the manifest of `module ./app`: the pattern matches the module path. -/
theorem checkNoLocalReplace_flags_module_path :
    (GoChecker.checkNoLocalReplace (envOk manifestDotModule "") "." []).1 =
      { Name := "Go: no local replace directives", Passed := false,
        Output := "go.mod contains local replace directives" } := by
  decide

/-- A local replace directive is flagged. -/
theorem checkNoLocalReplace_flags_local_replace :
    (GoChecker.checkNoLocalReplace (envOk manifestLocalReplace "") "." []).1 =
      { Name := "Go: no local replace directives", Passed := false,
        Output := "go.mod contains local replace directives" } := by
  decide

/-- A replace directive whose target is a module passes. -/
theorem checkNoLocalReplace_passes_remote_replace :
    (GoChecker.checkNoLocalReplace (envOk manifestRemoteReplace "") "." []).1 =
      { Name := "Go: no local replace directives", Passed := true } := by
  decide

/-! ## The format sub-check -/

/-- The function `isSpace` accepts exactly the code points of `whiteSpace`. -/
theorem isSpace_iff (c : Char) : isSpace c = true ↔ c.toNat ∈ whiteSpace := by
  unfold isSpace whiteSpace
  simp only [Bool.or_eq_true, Bool.and_eq_true, decide_eq_true_eq, beq_iff_eq, List.mem_cons,
    List.mem_singleton, List.not_mem_nil, or_false]
  omega

/-- Trimming a text made of a white run, a core that neither begins nor ends
with white space, and a white run, leaves the core. -/
theorem trim_core (pre mid suf : List Char)
    (hpre : ∀ c ∈ pre, isSpace c = true) (hsuf : ∀ c ∈ suf, isSpace c = true)
    (hhead : ∀ c, mid.head? = some c → isSpace c = false)
    (hlast : ∀ c, mid.getLast? = some c → isSpace c = false) :
    ((pre ++ mid ++ suf).dropWhile isSpace).rdropWhile isSpace = mid := by
  cases mid with
  | nil =>
    have hall : ∀ c ∈ pre ++ [] ++ suf, isSpace c = true := by
      intro c hc
      simp only [List.append_nil, List.mem_append] at hc
      exact hc.elim (hpre c) (hsuf c)
    rw [List.dropWhile_eq_nil_iff.mpr hall]
    rfl
  | cons c m =>
    have hc : isSpace c = false := hhead c rfl
    have h1 : (pre ++ (c :: m) ++ suf).dropWhile isSpace = (c :: m) ++ suf := by
      rw [List.append_assoc, List.cons_append]
      exact dropWhile_run isSpace pre (m ++ suf) c hpre hc
    rw [h1]
    obtain ⟨ini, d, hd⟩ : ∃ ini d, c :: m = ini ++ [d] :=
      ⟨(c :: m).dropLast, (c :: m).getLast (by simp), (List.dropLast_append_getLast _).symm⟩
    have hdl : isSpace d = false := hlast d (by rw [hd]; exact List.getLast?_concat _)
    rw [hd]
    unfold List.rdropWhile
    rw [List.reverse_append, List.reverse_append, List.reverse_singleton, List.singleton_append,
      dropWhile_run isSpace suf.reverse ini.reverse d (fun x hx => hsuf x (List.mem_reverse.mp hx))
        hdl]
    simp

theorem rdropWhile_append_rtakeWhile (p : Char → Bool) (l : List Char) :
    l.rdropWhile p ++ l.rtakeWhile p = l := by
  unfold List.rdropWhile List.rtakeWhile
  rw [← List.reverse_append, List.takeWhile_append_dropWhile, List.reverse_reverse]

/-- The trimmed text is the core of the text: what precedes and what follows it
is white space, and it neither begins nor ends with white space. -/
theorem TrimSpace_core (s : String) :
    ∃ pre suf : List Char, s.data = pre ++ (TrimSpace s).data ++ suf ∧
      (∀ c ∈ pre, isSpace c = true) ∧ (∀ c ∈ suf, isSpace c = true) ∧
      (∀ c, (TrimSpace s).data.head? = some c → isSpace c = false) ∧
      (∀ c, (TrimSpace s).data.getLast? = some c → isSpace c = false) := by
  unfold TrimSpace
  refine ⟨s.data.takeWhile isSpace, (s.data.dropWhile isSpace).rtakeWhile isSpace, ?_,
    fun c hc => List.mem_takeWhile_imp hc, fun c hc => List.mem_rtakeWhile_imp hc, ?_, ?_⟩
  · rw [List.append_assoc, rdropWhile_append_rtakeWhile, List.takeWhile_append_dropWhile]
  · intro c hc
    have hpre : (s.data.dropWhile isSpace).rdropWhile isSpace <+: s.data.dropWhile isSpace :=
      List.rdropWhile_prefix isSpace _
    obtain ⟨r, hr⟩ := hpre
    have h2 : (s.data.dropWhile isSpace).head? = some c := by
      rw [← hr, List.head?_append, hc]
      rfl
    have h3 := List.head?_dropWhile_not isSpace s.data
    rw [h2] at h3
    simpa using h3
  · intro c hc
    have hne : (s.data.dropWhile isSpace).rdropWhile isSpace ≠ [] := by
      intro h0
      rw [h0] at hc
      simp at hc
    have h1 := List.rdropWhile_last_not isSpace (s.data.dropWhile isSpace) hne
    rw [List.getLast?_eq_getLast _ hne] at hc
    have h2 : ((s.data.dropWhile isSpace).rdropWhile isSpace).getLast hne = c :=
      Option.some.inj hc
    rw [h2] at h1
    simpa using h1

/-- The trimmed text is empty exactly when every character is white space. -/
theorem TrimSpace_eq_empty_iff (s : String) :
    TrimSpace s = "" ↔ ∀ c ∈ s.data, isSpace c = true := by
  unfold TrimSpace
  constructor
  · intro h
    have h1 : (s.data.dropWhile isSpace).rdropWhile isSpace = [] := congrArg String.data h
    rw [List.rdropWhile_eq_nil_iff] at h1
    by_contra hne
    push_neg at hne
    obtain ⟨c, hc, hsp⟩ := hne
    have h2 : s.data.dropWhile isSpace ≠ [] := by
      intro h3
      rw [List.dropWhile_eq_nil_iff] at h3
      exact hsp (h3 c hc)
    have h4 := List.dropWhile_get_zero_not isSpace s.data (List.length_pos.mpr h2)
    exact h4 (h1 _ (List.get_mem _ _ _))
  · intro h
    have h1 : s.data.dropWhile isSpace = [] := List.dropWhile_eq_nil_iff.mpr h
    rw [h1]
    rfl

theorem mem_intersperse_of_mem {α : Type} (sep l : α) :
    ∀ ls : List α, l ∈ ls → l ∈ ls.intersperse sep
  | [], h => by simp at h
  | [a], h => by simpa using h
  | a :: b :: rest, h => by
    rw [List.intersperse_cons₂]
    rcases List.mem_cons.mp h with h | h
    · exact h ▸ List.mem_cons_self _ _
    · exact List.mem_cons_of_mem _ (List.mem_cons_of_mem _ (mem_intersperse_of_mem sep l _ h))

theorem intercalate_cons₂ (sep a b : List Char) (rest : List (List Char)) :
    sep.intercalate (a :: b :: rest) = a ++ sep ++ sep.intercalate (b :: rest) := by
  simp [List.intercalate]

/-- A listing that ends every name with a line feed is the names joined by line
feeds, and one more line feed. -/
theorem listing_eq_intercalate :
    ∀ names : List (List Char), names ≠ [] →
      (names.map (fun n => n ++ ['\n'])).flatten = ['\n'].intercalate names ++ ['\n']
  | [], h => absurd rfl h
  | [a], _ => by simp [List.intercalate]
  | a :: b :: rest, _ => by
    rw [intercalate_cons₂, List.map_cons, List.flatten_cons,
      listing_eq_intercalate (b :: rest) (by simp)]
    simp

theorem intercalate_getLast? (sep : List Char) (d : Char) (ini : List Char) :
    ∀ names : List (List Char), names.getLast? = some (ini ++ [d]) →
      (sep.intercalate names).getLast? = some d
  | [], h => by simp at h
  | [a], h => by
    simp only [List.getLast?_singleton, Option.some.injEq] at h
    subst h
    simp [List.intercalate]
  | a :: b :: rest, h => by
    rw [intercalate_cons₂]
    have h1 : (b :: rest).getLast? = some (ini ++ [d]) := by
      rw [List.getLast?_cons_cons] at h
      exact h
    have h2 := intercalate_getLast? sep d ini (b :: rest) h1
    rw [List.getLast?_append, h2]
    rfl

theorem intercalate_head? (sep : List Char) (c : Char) (tl : List Char) :
    ∀ names : List (List Char), names.head? = some (c :: tl) →
      (sep.intercalate names).head? = some c
  | [], h => by simp at h
  | [a], h => by
    simp only [List.head?_cons, Option.some.injEq] at h
    subst h
    simp [List.intercalate]
  | a :: b :: rest, h => by
    simp only [List.head?_cons, Option.some.injEq] at h
    subst h
    rw [intercalate_cons₂]
    rfl

/-- C6, amended: when `gofmt -l .` succeeds, `checkFormat` returns `Passed` true
with an empty `Output` and a nil `Error` exactly when the output is white space
only.  Otherwise the output is a white run, a core that neither begins nor
ends with white space, and a white run, and `checkFormat` returns `Passed`
false, a nil `Error` and `Output` equal to "Files need formatting:\n" followed
by the core.  For a listing that ends every name with a line feed, whose first
name does not begin and whose last name does not end with white space,
`Output` is the header followed by the names joined by line feeds, and every
listed name is part of `Output`. -/
theorem checkFormat_success (env : Env) (dir : String) (t : Trace)
    (h : (env.cmdOutput t dir "gofmt" ["-l", "."]).2 = none) :
    (((GoChecker.checkFormat env dir t).1.Passed = true ∧
        (GoChecker.checkFormat env dir t).1.Output = "" ∧
        (GoChecker.checkFormat env dir t).1.Error = none) ↔
      ∀ c ∈ (env.cmdOutput t dir "gofmt" ["-l", "."]).1.data, c.toNat ∈ whiteSpace) ∧
    ((∃ c ∈ (env.cmdOutput t dir "gofmt" ["-l", "."]).1.data, c.toNat ∉ whiteSpace) →
      ∃ pre mid suf : List Char,
        (env.cmdOutput t dir "gofmt" ["-l", "."]).1.data = pre ++ mid ++ suf ∧
        (∀ c ∈ pre, c.toNat ∈ whiteSpace) ∧ (∀ c ∈ suf, c.toNat ∈ whiteSpace) ∧
        (∃ c, mid.head? = some c ∧ c.toNat ∉ whiteSpace) ∧
        (∃ c, mid.getLast? = some c ∧ c.toNat ∉ whiteSpace) ∧
        (GoChecker.checkFormat env dir t).1.Passed = false ∧
        (GoChecker.checkFormat env dir t).1.Error = none ∧
        (GoChecker.checkFormat env dir t).1.Output = "Files need formatting:\n" ++ String.mk mid) ∧
    (∀ (names : List (List Char)) (c d : Char) (tl ini : List Char),
      (env.cmdOutput t dir "gofmt" ["-l", "."]).1.data =
        (names.map (fun n => n ++ ['\n'])).flatten →
      names.head? = some (c :: tl) → c.toNat ∉ whiteSpace →
      names.getLast? = some (ini ++ [d]) → d.toNat ∉ whiteSpace →
      (GoChecker.checkFormat env dir t).1.Passed = false ∧
      (GoChecker.checkFormat env dir t).1.Error = none ∧
      (GoChecker.checkFormat env dir t).1.Output.data =
        "Files need formatting:\n".data ++ ['\n'].intercalate names ∧
      ∀ n ∈ names, n <:+: (GoChecker.checkFormat env dir t).1.Output.data) := by
  have hres : (GoChecker.checkFormat env dir t).1 =
      if TrimSpace (env.cmdOutput t dir "gofmt" ["-l", "."]).1 ≠ "" then
        { Name := "Go: gofmt", Passed := false,
          Output := "Files need formatting:\n" ++
            TrimSpace (env.cmdOutput t dir "gofmt" ["-l", "."]).1 }
      else { Name := "Go: gofmt", Passed := true } := by
    unfold GoChecker.checkFormat
    simp only [h]
    split <;> rfl
  generalize (env.cmdOutput t dir "gofmt" ["-l", "."]).1 = out at hres ⊢
  generalize (GoChecker.checkFormat env dir t).1 = r at hres ⊢
  have hws : (∀ c ∈ out.data, c.toNat ∈ whiteSpace) ↔ TrimSpace out = "" := by
    rw [TrimSpace_eq_empty_iff]
    exact forall_congr' fun c => imp_congr_right fun _ => (isSpace_iff c).symm
  have hnot : ∀ c : Char, c.toNat ∉ whiteSpace ↔ isSpace c = false := by
    intro c
    rw [← isSpace_iff]
    simp
  refine ⟨?_, ?_, ?_⟩
  · rw [hws]
    by_cases hE : TrimSpace out = ""
    · simp [hres, hE]
    · simp [hres, hE]
  · rintro ⟨c, hc, hcw⟩
    have hE : TrimSpace out ≠ "" := fun h0 => hcw (hws.mpr h0 c hc)
    obtain ⟨pre, suf, hsplit, hpre, hsuf, hhead, hlast⟩ := TrimSpace_core out
    have hne : (TrimSpace out).data ≠ [] := fun h0 => hE (String.ext h0)
    obtain ⟨x, xs, hx⟩ := List.exists_cons_of_ne_nil hne
    refine ⟨pre, (TrimSpace out).data, suf, hsplit,
      fun a ha => (isSpace_iff a).mp (hpre a ha), fun a ha => (isSpace_iff a).mp (hsuf a ha),
      ⟨x, by rw [hx]; rfl, (hnot x).mpr (hhead x (by rw [hx]; rfl))⟩,
      ⟨_, List.getLast?_eq_getLast _ hne, (hnot _).mpr (hlast _ (List.getLast?_eq_getLast _ hne))⟩,
      ?_⟩
    simp [hres, hE]
  · intro names c d tl ini hout hhd hc hlastn hd
    have hnames : names ≠ [] := by
      intro h0
      rw [h0] at hhd
      simp at hhd
    have htrim : (TrimSpace out).data = ['\n'].intercalate names := by
      unfold TrimSpace
      rw [hout, listing_eq_intercalate names hnames]
      have := trim_core [] (['\n'].intercalate names) ['\n'] (by simp) (by decide)
        (fun a ha => by
          rw [intercalate_head? _ c tl names hhd] at ha
          exact Option.some.inj ha ▸ (hnot c).mp hc)
        (fun a ha => by
          rw [intercalate_getLast? _ d ini names hlastn] at ha
          exact Option.some.inj ha ▸ (hnot d).mp hd)
      simpa using this
    have hE : TrimSpace out ≠ "" := by
      intro h0
      have h1 := intercalate_head? ['\n'] c tl names hhd
      rw [← htrim, h0] at h1
      simp at h1
    have hO : r.Output.data = "Files need formatting:\n".data ++ ['\n'].intercalate names := by
      rw [hres, if_pos hE, ← htrim]
      exact String.data_append _ _
    refine ⟨by simp [hres, hE], by simp [hres, hE], hO, fun n hn => ?_⟩
    rw [hO]
    exact (List.infix_of_mem_flatten (mem_intersperse_of_mem _ _ _ hn)).trans
      (List.suffix_append _ _).isInfix

/-- C6, amended, at concrete inputs: two files listed, and a blank listing. -/
theorem checkFormat_success_witness :
    envUnformatted.cmdOutput [] "." "gofmt" ["-l", "."] = ("main.go\npkg/util.go\n", none) ∧
    (GoChecker.checkFormat envUnformatted "." []).1.Passed = false ∧
    (GoChecker.checkFormat envUnformatted "." []).1.Output.data =
      "Files need formatting:\nmain.go\npkg/util.go".data ∧
    "pkg/util.go".data <:+: (GoChecker.checkFormat envUnformatted "." []).1.Output.data ∧
    envBlankListing.cmdOutput [] "." "gofmt" ["-l", "."] = (" \n\t", none) ∧
    (GoChecker.checkFormat envBlankListing "." []).1.Passed = true :=
  have h := (checkFormat_success envUnformatted "." [] rfl).2.2
    ["main.go".data, "pkg/util.go".data] 'm' 'o' "ain.go".data "pkg/util.g".data
    rfl rfl (by decide) rfl (by decide)
  have hb := ((checkFormat_success envBlankListing "." [] rfl).1.mpr (by decide)).1
  ⟨rfl, h.1, h.2.2.1, h.2.2.2 _ (by decide), rfl, hb⟩

/-- C6, as stated, fails: `gofmt -l .` lists ` a.go` and `b.go`; the listing is
trimmed, and the listed name ` a.go` is not part of `Output`. -/
theorem checkFormat_trims_listed_name :
    envLeadingSpaceName.cmdOutput [] "." "gofmt" ["-l", "."] = (" a.go\nb.go\n", none) ∧
    (GoChecker.checkFormat envLeadingSpaceName "." []).1.Output =
      "Files need formatting:\na.go\nb.go" ∧
    ¬ " a.go".data <:+: (GoChecker.checkFormat envLeadingSpaceName "." []).1.Output.data :=
  ⟨rfl, by decide, by decide⟩

/-! ## Failed invocations of the mandatory tools -/

/-- C7, as stated, fails for `checkFormat`: it is not true that whenever the
formatter's invocation fails the Result has `Passed` false, a non-nil `Error`
and an `Output` that holds the captured text.  In `envFormatterFails` the
captured text is "main.go" and the Result's `Output` is empty. -/
theorem checkFormat_drops_captured_output :
    ¬ ∀ (env : Env) (dir : String) (t : Trace) (e : String),
      (env.cmdOutput t dir "gofmt" ["-l", "."]).2 = some e →
      (GoChecker.checkFormat env dir t).1.Passed = false ∧
      (GoChecker.checkFormat env dir t).1.Error ≠ none ∧
      (TrimSpace (env.cmdOutput t dir "gofmt" ["-l", "."]).1).data <:+:
        (GoChecker.checkFormat env dir t).1.Output.data := by
  intro h
  have h1 := (h envFormatterFails "." [] "exit status 2" rfl).2.2
  have h2 : (GoChecker.checkFormat envFormatterFails "." []).1.Output.data = [] := rfl
  rw [h2, List.infix_nil] at h1
  exact absurd h1 (by decide)

/-- C7, amended: when the invocation of `go mod edit -json` or of `gofmt -l .`
fails, the Result has `Passed` false, `Error` equal to the invocation's error
and an empty `Output`; `checkTest` returns the Result of the command executor
unchanged, and records the one executor call it makes. -/
theorem failed_invocation_result (env : Env) (dir : String) (t : Trace) :
    (∀ e, (env.cmdOutput t dir "go" ["mod", "edit", "-json"]).2 = some e →
      (GoChecker.checkNoLocalReplace env dir t).1.Passed = false ∧
      (GoChecker.checkNoLocalReplace env dir t).1.Error = some e ∧
      (GoChecker.checkNoLocalReplace env dir t).1.Output = "") ∧
    (∀ e, (env.cmdOutput t dir "gofmt" ["-l", "."]).2 = some e →
      (GoChecker.checkFormat env dir t).1.Passed = false ∧
      (GoChecker.checkFormat env dir t).1.Error = some e ∧
      (GoChecker.checkFormat env dir t).1.Output = "") ∧
    GoChecker.checkTest env dir t =
      (env.RunCommand t "Go: tests" dir "go" ["test", "./..."],
        t ++ [Call.runCommand "Go: tests" dir "go" ["test", "./..."]]) := by
  refine ⟨fun e h => ?_, fun e h => ?_, rfl⟩
  · unfold GoChecker.checkNoLocalReplace
    simp [h]
  · unfold GoChecker.checkFormat
    simp [h]

/-- C7, amended, at a concrete input: the formatter exits with status 2. -/
theorem failed_invocation_result_witness :
    (envFormatterFails.cmdOutput [] "." "gofmt" ["-l", "."]).2 = some "exit status 2" ∧
    (GoChecker.checkFormat envFormatterFails "." []).1.Passed = false ∧
    (GoChecker.checkFormat envFormatterFails "." []).1.Error = some "exit status 2" ∧
    (GoChecker.checkFormat envFormatterFails "." []).1.Output = "" :=
  ⟨rfl, (failed_invocation_result envFormatterFails "." []).2.1 "exit status 2" rfl⟩

/-! ## States of the returned Results -/

theorem checkNoLocalReplace_consistent (env : Env) (dir : String) (t : Trace) :
    (GoChecker.checkNoLocalReplace env dir t).1.SkipConsistent ∧
    (GoChecker.checkNoLocalReplace env dir t).1.PassConsistent := by
  unfold GoChecker.checkNoLocalReplace Result.SkipConsistent Result.PassConsistent
  dsimp only
  split
  · simp
  · split <;> simp

theorem checkFormat_consistent (env : Env) (dir : String) (t : Trace) :
    (GoChecker.checkFormat env dir t).1.SkipConsistent ∧
    (GoChecker.checkFormat env dir t).1.PassConsistent := by
  unfold GoChecker.checkFormat Result.SkipConsistent Result.PassConsistent
  dsimp only
  split
  · simp
  · split <;> simp

theorem executor_consistent (env : Env) (hW : env.ExecutorWellFormed) (hR : env.ExecutorNoReason)
    (t : Trace) (name dir prog : String) (args : List String) :
    (env.RunCommand t name dir prog args).SkipConsistent ∧
    (env.RunCommand t name dir prog args).PassConsistent := by
  unfold Result.SkipConsistent Result.PassConsistent
  have h1 := hW t name dir prog args
  have h2 := hR t name dir prog args
  refine ⟨⟨by simp [h1.1, h2], by simp [h1.1]⟩, ?_⟩
  rintro ⟨hp, he⟩
  exact he (h1.2.mp hp)

theorem checkLint_consistent (env : Env) (hW : env.ExecutorWellFormed)
    (hR : env.ExecutorNoReason) (dir : String) (t : Trace) :
    (GoChecker.checkLint env dir t).1.SkipConsistent ∧
    (GoChecker.checkLint env dir t).1.PassConsistent := by
  unfold GoChecker.checkLint
  dsimp only
  split
  · simp [Result.SkipConsistent, Result.PassConsistent]
  · exact executor_consistent env hW hR _ _ _ _ _

theorem checkTest_consistent (env : Env) (hW : env.ExecutorWellFormed)
    (hR : env.ExecutorNoReason) (dir : String) (t : Trace) :
    (GoChecker.checkTest env dir t).1.SkipConsistent ∧
    (GoChecker.checkTest env dir t).1.PassConsistent :=
  executor_consistent env hW hR _ _ _ _ _

theorem checkCoverage_skipConsistent (env : Env) (hW : env.ExecutorWellFormed)
    (hR : env.ExecutorNoReason) (dir exclude : String) (t : Trace) :
    (GoChecker.checkCoverage env dir exclude t).1.SkipConsistent := by
  unfold GoChecker.checkCoverage Result.SkipConsistent
  dsimp only
  split
  · simp
  · simp [(hW _ _ _ _ _).1, hR _ _ _ _ _]

/-- The Results of `Check` are those of the sub-checks before coverage, each
consistent, followed by the coverage Result when `Coverage` is enabled. -/
theorem Check_split (env : Env) (hW : env.ExecutorWellFormed) (hR : env.ExecutorNoReason)
    (dir : String) (opts : Options) (t : Trace) :
    ∃ (A : List Result) (rc : Result),
      (GoChecker.Check env dir opts t).1 = A ++ (if opts.Coverage then [rc] else []) ∧
      (∀ r ∈ A, r.SkipConsistent ∧ r.PassConsistent) ∧ rc.SkipConsistent := by
  have hN := fun t => checkNoLocalReplace_consistent env dir t
  have hF := fun t => checkFormat_consistent env dir t
  have hL := fun t => checkLint_consistent env hW hR dir t
  have hT := fun t => checkTest_consistent env hW hR dir t
  refine ⟨_, _, Check_results env dir opts t, ?_,
    checkCoverage_skipConsistent env hW hR dir opts.GoExcludeCoverage _⟩
  cases hFo : opts.Format <;> cases hLo : opts.Lint <;> cases hTo : opts.Test <;>
    simp [hN, hF, hL, hT]

theorem envCoverageFails_wellFormed : envCoverageFails.ExecutorWellFormed := by
  intro t name dir prog args
  unfold envCoverageFails
  dsimp only
  split <;> simp

theorem envCoverageFails_noReason : envCoverageFails.ExecutorNoReason := by
  intro t name dir prog args
  unfold envCoverageFails
  dsimp only
  split <;> rfl

/-- C9, as stated, fails.  The executor of `envCoverageFails` meets the
assumption, and with `Coverage` enabled `Check` returns a Result that has
`Passed` true together with a non-nil `Error`.  The executor of
`envExecutorGivesReason` meets the assumption too, and with `Test` enabled
`Check` returns a Result that is not skipped and has a non-empty `Reason`. -/
theorem forced_pass_keeps_error :
    (envCoverageFails.ExecutorWellFormed ∧
      ∃ r ∈ (GoChecker.Check envCoverageFails "." { Coverage := true } []).1,
        r.Passed = true ∧ r.Error ≠ none) ∧
    (envExecutorGivesReason.ExecutorWellFormed ∧
      ∃ r ∈ (GoChecker.Check envExecutorGivesReason "." { Test := true } []).1,
        r.Skipped = false ∧ r.Reason ≠ "") :=
  ⟨⟨envCoverageFails_wellFormed,
    { Name := "Go: coverage", Passed := true, Output := "no coverage",
      Error := some "exit status 1" }, by decide, rfl, by decide⟩,
   ⟨fun _ _ _ _ _ => ⟨rfl, by simp [envExecutorGivesReason]⟩,
    { Name := "Go: tests", Passed := true, Reason := "cached" }, by decide, rfl, by decide⟩⟩

/-- C9, amended: if the executor only returns Results with `Skipped` false, an
empty `Reason`, and `Passed` true exactly when `Error` is nil, then every
Result of `Check` has a non-empty `Reason` exactly when `Skipped`, and a
skipped Result is neither passed nor in error; a Result with `Passed` true
together with a non-nil `Error` can only stand at the last position with
`Coverage` enabled, that is, be the coverage Result.  With `Coverage` enabled
the last Result is the coverage Result, and when the coverage tool is
installed its `Passed` is true and its `Error` is the one the executor
reports for the coverage run. -/
theorem Check_result_states (env : Env) (hW : env.ExecutorWellFormed)
    (hR : env.ExecutorNoReason) (dir : String) (opts : Options) (t : Trace) :
    (∀ r ∈ (GoChecker.Check env dir opts t).1,
      (r.Reason ≠ "" ↔ r.Skipped = true) ∧
      (r.Skipped = true → r.Passed = false ∧ r.Error = none)) ∧
    (∀ (i : Nat) (hi : i < (GoChecker.Check env dir opts t).1.length),
      (GoChecker.Check env dir opts t).1[i].Passed = true →
      (GoChecker.Check env dir opts t).1[i].Error ≠ none →
      opts.Coverage = true ∧ i + 1 = (GoChecker.Check env dir opts t).1.length) ∧
    (opts.Coverage = true →
      ∃ tc : Trace,
        (GoChecker.Check env dir opts t).1.getLast? =
          some (GoChecker.checkCoverage env dir opts.GoExcludeCoverage tc).1 ∧
        (env.CommandExists tc "gocoverbadge" = true →
          (GoChecker.checkCoverage env dir opts.GoExcludeCoverage tc).1.Passed = true ∧
          (GoChecker.checkCoverage env dir opts.GoExcludeCoverage tc).1.Error =
            (env.RunCommand (tc ++ [Call.commandExists "gocoverbadge"]) "Go: coverage" dir
              "gocoverbadge"
              (if opts.GoExcludeCoverage ≠ "" then
                ["-dir", dir, "-badge-only", "-exclude", opts.GoExcludeCoverage]
              else ["-dir", dir, "-badge-only"])).Error)) := by
  have hForced : opts.Coverage = true →
      ∃ tc : Trace,
        (GoChecker.Check env dir opts t).1.getLast? =
          some (GoChecker.checkCoverage env dir opts.GoExcludeCoverage tc).1 ∧
        (env.CommandExists tc "gocoverbadge" = true →
          (GoChecker.checkCoverage env dir opts.GoExcludeCoverage tc).1.Passed = true ∧
          (GoChecker.checkCoverage env dir opts.GoExcludeCoverage tc).1.Error =
            (env.RunCommand (tc ++ [Call.commandExists "gocoverbadge"]) "Go: coverage" dir
              "gocoverbadge"
              (if opts.GoExcludeCoverage ≠ "" then
                ["-dir", dir, "-badge-only", "-exclude", opts.GoExcludeCoverage]
              else ["-dir", dir, "-badge-only"])).Error) := by
    intro hCo
    have hLast : ∃ tc : Trace, (GoChecker.Check env dir opts t).1.getLast? =
        some (GoChecker.checkCoverage env dir opts.GoExcludeCoverage tc).1 := by
      rw [Check_results env dir opts t]
      simp only [hCo, if_true]
      exact ⟨_, List.getLast?_concat _⟩
    obtain ⟨tc, hLast⟩ := hLast
    refine ⟨tc, hLast, fun hE => ?_⟩
    unfold GoChecker.checkCoverage
    by_cases hx : opts.GoExcludeCoverage = "" <;> simp [hE, hx]
  obtain ⟨A, rc, hL, hA, hrc⟩ := Check_split env hW hR dir opts t
  refine ⟨?_, ?_, hForced⟩
  · intro r hr
    rw [hL] at hr
    rcases List.mem_append.mp hr with h | h
    · exact (hA r h).1
    · cases hCo : opts.Coverage
      · simp [hCo] at h
      · simp only [hCo, if_true, List.mem_singleton] at h
        exact h ▸ hrc
  · clear hForced
    generalize (GoChecker.Check env dir opts t).1 = L at hL ⊢
    subst hL
    intro i hi hp he
    by_cases hlt : i < A.length
    · exfalso
      rw [List.getElem_append_left hlt] at hp he
      exact (hA _ (List.getElem_mem hlt)).2 ⟨hp, he⟩
    · cases hCo : opts.Coverage
      · simp [hCo] at hi
        omega
      · simp [hCo] at hi ⊢
        omega

/-- C9, amended, at a concrete input: lint and coverage enabled, the coverage
tool exits non-zero; the two Results before the coverage Result are not passed
and in error at once, and the coverage Result is passed with the error of the
tool. -/
theorem Check_result_states_witness :
    envCoverageFails.ExecutorWellFormed ∧ envCoverageFails.ExecutorNoReason ∧
    (∀ r ∈ (GoChecker.Check envCoverageFails "." { Lint := true, Coverage := true } []).1,
      (r.Reason ≠ "" ↔ r.Skipped = true) ∧
      (r.Skipped = true → r.Passed = false ∧ r.Error = none)) ∧
    (∀ (i : Nat) (hi : i <
        (GoChecker.Check envCoverageFails "." { Lint := true, Coverage := true } []).1.length),
      (GoChecker.Check envCoverageFails "." { Lint := true, Coverage := true } []).1[i].Passed = true →
      (GoChecker.Check envCoverageFails "." { Lint := true, Coverage := true } []).1[i].Error ≠ none →
      i + 1 = 3) ∧
    ∃ rc : Result,
      (GoChecker.Check envCoverageFails "." { Lint := true, Coverage := true } []).1.getLast? =
        some rc ∧
      rc.Passed = true ∧ rc.Error = some "exit status 1" :=
  have h := Check_result_states envCoverageFails envCoverageFails_wellFormed
    envCoverageFails_noReason "." { Lint := true, Coverage := true } []
  ⟨envCoverageFails_wellFormed, envCoverageFails_noReason, h.1,
    fun i hi hp he => (h.2.1 i hi hp he).2,
    (h.2.2 rfl).elim fun _ hc => ⟨_, hc.1, (hc.2 rfl).1, (hc.2 rfl).2⟩⟩

end Checks

namespace Main

open Checks

/-! ## The exit status and the options of `runCheck` -/

/-- C8: once `runCheck` reaches the summary step (the directory exists, the
requirements are met, a language is detected and releasekit ran), it ends with
`os.Exit(1)` exactly when a check failed and returns otherwise: in go/no-go
mode exactly when `PrintGoNoGoReport` returns false, in standard mode exactly
when the failed count of `PrintResults` is positive, whatever the passed,
skipped and warnings counts. -/
theorem runCheck_exit_iff_failed (fl : Flags) (w : World) (args : List String)
    (hDir : w.dirNotExist (runCheck.dir args) = false)
    (hReq : w.allSatisfied = true)
    (hDet : (w.Detect (runCheck.dir args)).2 = none)
    (hLang : (w.Detect (runCheck.dir args)).1 ≠ [])
    (hRun : (w.RunReleasekit (runCheck.dir args)
      (runCheck.opts fl (runCheck.cfg fl w (runCheck.dir args)))).2 = none) :
    (fl.goNoGoMode = true →
      (runCheck fl w args).2 =
        if w.PrintGoNoGoReport
            (w.RunReleasekit (runCheck.dir args)
              (runCheck.opts fl (runCheck.cfg fl w (runCheck.dir args)))).1
            (runCheck.cfg fl w (runCheck.dir args)).Verbose = false
        then Ending.exited 1 else Ending.returned) ∧
    (fl.goNoGoMode = false →
      ∀ passed failed skipped warnings : Int,
        w.PrintResults
            (w.RunReleasekit (runCheck.dir args)
              (runCheck.opts fl (runCheck.cfg fl w (runCheck.dir args)))).1
            (runCheck.cfg fl w (runCheck.dir args)).Verbose =
          (passed, failed, skipped, warnings) →
        (runCheck fl w args).2 = if failed > 0 then Ending.exited 1 else Ending.returned) := by
  have hLen : ¬ (w.Detect (runCheck.dir args)).1.length = 0 := by
    simpa [List.length_eq_zero] using hLang
  unfold runCheck
  simp only [hDir, hReq, hDet, hLen, hRun, Bool.false_eq_true, if_false, Bool.not_true]
  unfold runCheck.summary
  constructor
  · intro hG
    simp only [hG, if_true]
    cases w.PrintGoNoGoReport _ _ <;> simp
  · intro hG passed failed skipped warnings hC
    simp only [hG, Bool.false_eq_true, if_false, hC]
    by_cases hf : failed > 0
    · simp [hf]
    · by_cases hw : warnings > 0 <;> simp [hf, hw]

/-- C8 at a concrete input: standard mode, no failure and two
warnings; `runCheck` returns without `os.Exit`. -/
theorem runCheck_exit_iff_failed_witness :
    (worldWith (3, 0, 1, 2) true).dirNotExist (runCheck.dir []) = false ∧
    (worldWith (3, 0, 1, 2) true).allSatisfied = true ∧
    ((worldWith (3, 0, 1, 2) true).Detect (runCheck.dir [])).2 = none ∧
    ((worldWith (3, 0, 1, 2) true).Detect (runCheck.dir [])).1 ≠ [] ∧
    (runCheck {} (worldWith (3, 0, 1, 2) true) []).2 = Ending.returned :=
  ⟨rfl, rfl, rfl, by decide,
    (runCheck_exit_iff_failed {} (worldWith (3, 0, 1, 2) true) [] rfl rfl rfl (by decide) rfl).2
      rfl 3 0 1 2 rfl⟩

/-- C10, as stated, fails: with no flag given the Options that `runCheck`
builds have `GoExcludeCoverage` empty, not the sentinel "cmd" that
`DefaultOptions` carries. -/
theorem runCheck_opts_exclusion_not_cmd :
    (runCheck.opts {} {}).GoExcludeCoverage = "" ∧
    DefaultOptions.GoExcludeCoverage = "cmd" ∧
    ¬ ((runCheck.opts {} {}).Test = true ∧ (runCheck.opts {} {}).Lint = true ∧
      (runCheck.opts {} {}).Format = true ∧ (runCheck.opts {} {}).Coverage = false ∧
      (runCheck.opts {} {}).GoExcludeCoverage = "cmd") :=
  ⟨rfl, rfl, by decide⟩

/-- C10, amended: the Options that `runCheck` builds have `Test`, `Lint`,
`Format` the negations of the flags, `Coverage` the coverage flag, `Verbose`
the configuration's, and `GoExcludeCoverage` the empty string; with no flag
given they are `Test`, `Lint`, `Format` true, `Coverage` false and an empty
`GoExcludeCoverage`. -/
theorem runCheck_opts_leave_exclusion_empty (fl : Flags) (cfg : Config) :
    (runCheck.opts fl cfg).Test = !fl.noTest ∧
    (runCheck.opts fl cfg).Lint = !fl.noLint ∧
    (runCheck.opts fl cfg).Format = !fl.noFormat ∧
    (runCheck.opts fl cfg).Coverage = fl.coverage ∧
    (runCheck.opts fl cfg).Verbose = cfg.Verbose ∧
    (runCheck.opts fl cfg).GoExcludeCoverage = "" ∧
    runCheck.opts {} cfg =
      { Test := true, Lint := true, Format := true, Coverage := false, GoExcludeCoverage := "",
        Verbose := cfg.Verbose } :=
  ⟨rfl, rfl, rfl, rfl, rfl, rfl, rfl⟩

end Main
